import Mathlib

/-!
# QuantShield: verification of the risk pipeline

Shallow embedding of the QuantShield backend (portfolio construction,
risk-feature engineering, panel building, serving endpoint) and proofs of
the specification claims about it.

Conventions of the embedding:
* dates are natural numbers (the pandas index, in increasing order in all
  realistic inputs, but nothing below assumes it unless stated);
* float values are modelled as exact rationals (`ℚ`) where the Python code
  performs field arithmetic, and as reals (`ℝ`) where a square root enters
  (standard deviations, annualized volatility);
* a pandas `Series` with possible NaNs is a `List (ℕ × Option ℚ)`
  (date, value), `dropna` removing the `none` entries;
* a rectangular `DataFrame` of returns or prices is a `Df`: a date index
  plus named columns of equal length;
* Python exceptions are `Except String`.
-/

namespace QuantShield

/-! ## DatasetBuilder._assign_risk_label (dataset_builder.py, lines 38-48) -/

/-- The condition of the first branch: `vol < 0.12 and max_dd < 0.15`. -/
def lowCond (vol max_dd : ℝ) : Prop :=
  vol < 0.12 ∧ max_dd < 0.15

/-- The condition of the `elif` branch:
`vol > 0.20 or max_dd > 0.25 or var95 > 0.03`. -/
def highCond (vol var95 max_dd : ℝ) : Prop :=
  vol > 0.20 ∨ max_dd > 0.25 ∨ var95 > 0.03

noncomputable instance (vol max_dd : ℝ) : Decidable (lowCond vol max_dd) := by
  unfold lowCond; infer_instance

noncomputable instance (vol var95 max_dd : ℝ) : Decidable (highCond vol var95 max_dd) := by
  unfold highCond; infer_instance

/-- `DatasetBuilder._assign_risk_label`: `Low` if the low condition holds,
else `High` if the high condition holds, else `Medium`. -/
noncomputable def assignRiskLabel (vol var95 max_dd : ℝ) : String :=
  if lowCond vol max_dd then "Low"
  else if highCond vol var95 max_dd then "High"
  else "Medium"

/-- The label-assignment rule exactly as the claim words it (Low checked
first, then High, else Medium), written independently of the code. -/
noncomputable def assignRiskLabelClaim (vol var95 max_dd : ℝ) : String :=
  if vol < 0.12 ∧ max_dd < 0.15 then "Low"
  else if vol > 0.20 ∨ max_dd > 0.25 ∨ var95 > 0.03 then "High"
  else "Medium"

/-! ## RiskFeatureEngineer (risk_metrics.py) -/

/-- `dropna` on a series with possible NaNs: keep the entries whose value
is present. -/
def dropNa (xs : List (ℕ × Option ℚ)) : List (ℕ × ℚ) :=
  xs.filterMap (fun p => p.2.map (fun v => (p.1, v)))

/-- Arithmetic mean of a list of values (0 on the empty list, by rational
division by zero; never used there). -/
def listMean (xs : List ℚ) : ℚ := xs.sum / xs.length

/-- Sample variance with one delta degree of freedom, as pandas
`Series.std()**2` (ddof = 1).  pandas yields NaN on a series of length ≤ 1;
that case is modelled as 0 here and every theorem that depends on the
standard deviation assumes at least two observations. -/
def sampleVar (xs : List ℚ) : ℚ :=
  if xs.length ≤ 1 then 0
  else (xs.map (fun x => (x - listMean xs) ^ 2)).sum / ((xs.length : ℚ) - 1)

/-- pandas `Series.std()` (ddof = 1): square root of the sample variance. -/
noncomputable def dailyStd (xs : List ℚ) : ℝ :=
  Real.sqrt ((sampleVar xs : ℚ) : ℝ)

/-- `RiskFeatureEngineer.compute_annualized_volatility`:
daily std times `sqrt(252)`. -/
noncomputable def annualizedVolatility (xs : List ℚ) : ℝ :=
  dailyStd xs * Real.sqrt 252

/-- `np.percentile(xs, 5)` with the default linear interpolation:
on the ascending sort `s` of `xs`, with `h = (n-1) * 5/100`, `k = ⌊h⌋`,
returns `s[k] + (h - k) * (s[k+1] - s[k])`. -/
def percentile05 (xs : List ℚ) : ℚ :=
  let s := List.insertionSort (· ≤ ·) xs
  let n := s.length
  if n = 0 then 0
  else
    let h : ℚ := ((n : ℚ) - 1) * (5 / 100)
    let k : ℕ := (⌊h⌋).toNat
    let a := s.getD k 0
    let b := s.getD (k + 1) a
    a + (h - (k : ℚ)) * (b - a)

/-- `RiskFeatureEngineer.compute_historical_var_95`: absolute value of the
5th percentile of the returns. -/
def computeHistoricalVar95 (xs : List ℚ) : ℚ := |percentile05 xs|

/-- `(1 + returns).cumprod()` with running accumulator `acc`. -/
def cumprodAux (acc : ℚ) : List ℚ → List ℚ
  | [] => []
  | r :: rs => (acc * (1 + r)) :: cumprodAux (acc * (1 + r)) rs

/-- `(1 + self.portfolio_returns).cumprod()`. -/
def cumprod (rs : List ℚ) : List ℚ := cumprodAux 1 rs

/-- `cummax` tail: running maximum seeded with `m`. -/
def cummaxAux (m : ℚ) : List ℚ → List ℚ
  | [] => []
  | x :: xs => max m x :: cummaxAux (max m x) xs

/-- `Series.cummax()`: running maximum of the list. -/
def cummax : List ℚ → List ℚ
  | [] => []
  | x :: xs => x :: cummaxAux x xs

/-- pandas `Series.min()` of a list (0 on the empty list; the engineer
rejects empty input, so the default is never reached). -/
def listMin (xs : List ℚ) : ℚ := xs.foldl min (xs.headD 0)

/-- `RiskFeatureEngineer.compute_max_drawdown`: cumulative growth,
its running maximum, relative drawdowns, absolute value of their minimum. -/
def computeMaxDrawdown (rs : List ℚ) : ℚ :=
  let cumulative := cumprod rs
  let rollingMax := cummax cumulative
  let drawdown := List.zipWith (fun c m => (c - m) / m) cumulative rollingMax
  |listMin drawdown|

/-- A weight map: tickers with their weights (a Python dict, keys unique). -/
abbrev WeightMap := List (String × ℚ)

/-- A rectangular DataFrame: a date index and named columns, every column
as long as the index. -/
structure Df where
  dates : List ℕ
  cols : List (String × List ℚ)

/-- `RiskFeatureEngineer.compute_diversification_ratio` on present
component returns and weights: per-column sample stds, the weighted sum
over tickers present in both the weight map and the component table
(missing tickers contribute nothing), divided by the portfolio std —
except that a portfolio std within `np.isclose` tolerance of 0
(`|std - 0| ≤ 1e-8 + 1e-5 * |0|`) returns exactly 1. -/
noncomputable def computeDiversificationRatio (pr : List ℚ) (comp : Df)
    (w : WeightMap) : ℝ :=
  let individualVols : List (String × ℝ) :=
    comp.cols.map (fun c => (c.1, dailyStd c.2))
  let weightedAvgVol : ℝ :=
    w.foldl (fun acc p =>
      match List.lookup p.1 individualVols with
      | some v => acc + (p.2 : ℝ) * v
      | none => acc) 0
  let portfolioVol := dailyStd pr
  if |portfolioVol - 0| ≤ 1e-8 + 1e-5 * |(0 : ℝ)| then 1
  else weightedAvgVol / portfolioVol

/-- The result of `compute_all_features`: a dict with three always-present
keys and an optional `Diversification_Ratio` key. -/
structure Features where
  vol : ℝ
  var95 : ℚ
  maxDD : ℚ
  divRatio : Option ℝ

/-- `RiskFeatureEngineer.compute_all_features`: the three unconditional
metrics, plus the diversification ratio only when both component returns
and weights were supplied. -/
noncomputable def computeAllFeatures (pr : List ℚ) (comp : Option Df)
    (w : Option WeightMap) : Features :=
  { vol := annualizedVolatility pr
    var95 := computeHistoricalVar95 pr
    maxDD := computeMaxDrawdown pr
    divRatio :=
      match comp, w with
      | some c, some wm => some (computeDiversificationRatio pr c wm)
      | _, _ => none }

/-! ## PortfolioBuilder (portfolio_builder.py) -/

/-- `Series.pct_change()` after dropping the leading NaN:
`p[i+1]/p[i] - 1` for consecutive prices. -/
def pctChangeList (ps : List ℚ) : List ℚ :=
  (ps.zip (ps.drop 1)).map (fun pq => pq.2 / pq.1 - 1)

/-- `self.daily_returns = self.price_data.pct_change().dropna()`:
the first row (all NaN) is dropped, every column becomes its
percentage-change series. -/
def dailyReturnsDf (priceData : Df) : Df :=
  { dates := priceData.dates.drop 1
    cols := priceData.cols.map (fun c => (c.1, pctChangeList c.2)) }

/-- `self.available_tickers = list(self.daily_returns.columns)`. -/
def availableTickers (priceData : Df) : List String :=
  (dailyReturnsDf priceData).cols.map Prod.fst

/-- `PortfolioBuilder._validate_weights`: empty map, a ticker outside the
available tickers, or a weight sum outside the `np.isclose` band around 1
(`|total - 1| ≤ 1e-8 + 1e-5 * |1|`) each raise; otherwise pass. -/
def validateWeights (avail : List String) (w : WeightMap) :
    Except String Unit :=
  if w.isEmpty then .error "Weights dictionary cannot be empty."
  else
    match w.find? (fun p => !(avail.contains p.1)) with
    | some _ => .error "Ticker not found in available price data."
    | none =>
      if |(w.map Prod.snd).sum - 1| ≤ 1e-8 + 1e-5 * |(1 : ℚ)| then .ok ()
      else .error "Portfolio weights must sum to 1.0."

/-- The aggregated portfolio returns: for each date of the daily-returns
index, `sum(weights.get(ticker, 0) * return_of_ticker)` over the available
columns (the dot product with the aligned weight vector). -/
def portfolioDailyReturns (priceData : Df) (w : WeightMap) :
    List (ℕ × ℚ) :=
  let rdf := dailyReturnsDf priceData
  (List.range rdf.dates.length).map (fun i =>
    (rdf.dates.getD i 0,
     (rdf.cols.map (fun c => (List.lookup c.1 w).getD 0 * c.2.getD i 0)).sum))

/-- The result of `build_portfolio`: the `Daily_Return` and
`Cumulative_Return` columns. -/
structure PortfolioResult where
  dailyReturn : List (ℕ × ℚ)
  cumulativeReturn : List (ℕ × ℚ)

/-- `PortfolioBuilder.build_portfolio`: validate the weights first; only
then aggregate daily returns and derive cumulative returns
(`(1 + r).cumprod() - 1`). -/
def buildPortfolio (priceData : Df) (w : WeightMap) :
    Except String PortfolioResult :=
  match validateWeights (availableTickers priceData) w with
  | .error e => .error e
  | .ok _ =>
    let dr := portfolioDailyReturns priceData w
    .ok { dailyReturn := dr
          cumulativeReturn :=
            List.zip (dr.map Prod.fst)
              ((cumprod (dr.map Prod.snd)).map (fun c => c - 1)) }

/-! ## DatasetBuilder (dataset_builder.py) -/

/-- `DatasetBuilder.WINDOW_LENGTH`. -/
def WINDOW_LENGTH : ℕ := 126

/-- `DatasetBuilder.STEP_SIZE`. -/
def STEP_SIZE : ℕ := 21

/-- Fuel-driven recursion for Python `range(start, stop, step)`; the fuel
bounds the number of iterations so the recursion is structural. -/
def pythonRangeAux : ℕ → ℤ → ℤ → ℤ → List ℤ
  | 0, _, _, _ => []
  | fuel + 1, start, stop, step =>
    if 0 < step ∧ start < stop then
      start :: pythonRangeAux fuel (start + step) stop step
    else []

/-- Python `range(start, stop, step)` for a positive step, over `ℤ` so a
non-positive `stop` yields the empty list exactly as in Python.  A fuel of
`(stop - start).toNat` suffices because each iteration advances `start` by
at least 1. -/
def pythonRange (start stop step : ℤ) : List ℤ :=
  pythonRangeAux (stop - start).toNat start stop step

/-- A portfolio DataFrame as handed to the `DatasetBuilder`: the
`Daily_Return` column may be missing altogether (`none`), and its entries
may be NaN. -/
structure PortfolioDF where
  dailyReturn : Option (List (ℕ × Option ℚ))

/-- A row of the panel dataset. -/
structure PanelRow where
  portfolioId : String
  windowStart : ℕ
  windowEnd : ℕ
  vol : ℝ
  var95 : ℚ
  maxDD : ℚ
  divRatio : ℝ
  label : String

/-- `DataFrame.loc[a:b]` on a date-indexed frame: keep the rows whose date
lies in the inclusive interval `[a, b]` (label-based slicing on a
monotonic index). -/
def locSlice (df : Df) (a b : ℕ) : Df :=
  let keep := (List.range df.dates.length).filter
    (fun i => decide (a ≤ df.dates.getD i 0 ∧ df.dates.getD i 0 ≤ b))
  { dates := keep.map (fun i => df.dates.getD i 0)
    cols := df.cols.map (fun c => (c.1, keep.map (fun i => c.2.getD i 0))) }

/-- One iteration of the rolling-window loop body of
`build_panel_dataset`: window bounds from the slice's first and last index
dates, component returns sliced to the window, one `RiskFeatureEngineer`
invocation, the 1.0 fallback for a missing `Diversification_Ratio` key,
and the rule-based label. -/
noncomputable def buildRow (pid : String) (slice : List (ℕ × ℚ))
    (comp : Option Df) (w : Option WeightMap) : PanelRow :=
  let windowStart := (slice.headD (0, 0)).1
  let windowEnd := (slice.getLastD (0, 0)).1
  let windowComp := comp.map (fun c => locSlice c windowStart windowEnd)
  let features := computeAllFeatures (slice.map Prod.snd) windowComp w
  { portfolioId := pid
    windowStart := windowStart
    windowEnd := windowEnd
    vol := features.vol
    var95 := features.var95
    maxDD := features.maxDD
    divRatio := (features.divRatio).getD 1
    label := assignRiskLabel features.vol (features.var95 : ℝ)
      (features.maxDD : ℝ) }

/-- The per-portfolio part of `build_panel_dataset`: skip a frame without
a `Daily_Return` column, drop NaNs, skip a series shorter than
`WINDOW_LENGTH`, otherwise emit one row per window start in
`range(0, n - WINDOW_LENGTH + 1, STEP_SIZE)`, each over the contiguous
slice `iloc[start : start + WINDOW_LENGTH]`. -/
noncomputable def buildPanelForPortfolio (pid : String) (df : PortfolioDF)
    (comp : Option Df) (w : Option WeightMap) : List PanelRow :=
  match df.dailyReturn with
  | none => []
  | some col =>
    let dr := dropNa col
    let n := dr.length
    if n < WINDOW_LENGTH then []
    else
      (pythonRange 0 ((n : ℤ) - (WINDOW_LENGTH : ℤ) + 1) (STEP_SIZE : ℤ)).map
        (fun s => buildRow pid ((dr.drop s.toNat).take WINDOW_LENGTH) comp w)

/-- `DatasetBuilder.build_panel_dataset`: concatenate the per-portfolio
rows, looking the component returns and weights of each portfolio up in
the respective dicts. -/
noncomputable def buildPanelDataset (portfolios : List (String × PortfolioDF))
    (compDict : List (String × Df)) (wDict : List (String × WeightMap)) :
    List PanelRow :=
  portfolios.flatMap (fun p =>
    buildPanelForPortfolio p.1 p.2 (List.lookup p.1 compDict)
      (List.lookup p.1 wDict))

/-! ## RiskClassifier (risk_classifier.py) -/

/-- `RiskClassifier._sort_chronologically`:
`panel_dataset.sort_values(by="Window_End")` — a stable sort on the
`Window_End` column (the column always exists in the typed model). -/
def sortChronologically (panel : List PanelRow) : List PanelRow :=
  panel.mergeSort (fun a b => a.windowEnd ≤ b.windowEnd)

/-- The dataset `train_and_evaluate` actually indexes into: the panel
after the chronological sort, from which `X`, `y` and every
`TimeSeriesSplit` fold are taken. -/
def trainEvalData (panel : List PanelRow) : List PanelRow :=
  sortChronologically panel

/-! ## Serving endpoint (api/main.py predict_risk) -/

/-- Insertion into a Python dict modelled as an association list: an
existing key is overwritten in place, a new key is appended. -/
def dictInsert (m : List (String × ℚ)) (k : String) (v : ℚ) :
    List (String × ℚ) :=
  if m.any (fun p => p.1 == k) then
    m.map (fun p => if p.1 == k then (k, v) else p)
  else m ++ [(k, v)]

/-- The weights dict the `ETFDataFetcher` builds from the holdings list
(`weights[ticker] = weight` in order, later duplicates overwriting). -/
def dictOfList (hs : List (String × ℚ)) : WeightMap :=
  hs.foldl (fun m p => dictInsert m p.1 p.2) []

/-- `predict_risk`, with the externally fetched price data as a parameter:
the soft `[0.95, 1.05]` weight-sum gate, the fetcher's non-empty check,
`build_portfolio` (which re-validates the weights strictly), the 126-day
minimum, the most recent 126-day slice, one `RiskFeatureEngineer`
invocation on it, and the single feature row handed to the classifier in
the fixed order `[Vol, VaR95, MaxDD, DivRatio]`. -/
noncomputable def predictRisk (holdings : List (String × ℚ))
    (priceData : Df) : Except String (List ℝ) :=
  let total := (holdings.map Prod.snd).sum
  if ¬ (0.95 ≤ total ∧ total ≤ 1.05) then
    .error "Portfolio weights must sum to approximately 1.0."
  else if holdings.isEmpty then
    .error "The holdings list cannot be empty."
  else
    let weights := dictOfList holdings
    match buildPortfolio priceData weights with
    | .error e => .error e
    | .ok result =>
      let dailyReturns := result.dailyReturn
      if dailyReturns.length < 126 then
        .error "Insufficient data: required 126 days."
      else
        let inferenceReturns := dailyReturns.drop (dailyReturns.length - 126)
        let startDate := (inferenceReturns.headD (0, 0)).1
        let endDate := (inferenceReturns.getLastD (0, 0)).1
        let componentReturns :=
          locSlice (dailyReturnsDf priceData) startDate endDate
        let features := computeAllFeatures (inferenceReturns.map Prod.snd)
          (some componentReturns) (some weights)
        .ok [features.vol, (features.var95 : ℝ), (features.maxDD : ℝ),
             (features.divRatio).getD 1]

instance : Inhabited PanelRow :=
  ⟨{ portfolioId := "", windowStart := 0, windowEnd := 0, vol := 0,
     var95 := 0, maxDD := 0, divRatio := 0, label := "" }⟩

/-! ## Claim-side definitions

These definitions follow the wording of the specification (for the
refinement claims about maximum drawdown and the diversification ratio);
they are compared with the source-side definitions above. -/

/-- The spec's cumulative growth series, re-based at the start of the
given slice: `C_t = Π_{s ≤ t} (1 + r_s)`. -/
def cumClaim (rs : List ℚ) (t : ℕ) : ℚ :=
  ((rs.take (t + 1)).map (fun r => 1 + r)).prod

/-- The spec's `running_max(C_≤t)`: the maximum of the cumulative growth
series up to time `t`. -/
def runningMaxClaim (rs : List ℚ) (t : ℕ) : ℚ :=
  ((List.range (t + 1)).map (cumClaim rs)).foldl max (cumClaim rs 0)

/-- The spec's maximum drawdown:
`abs(min over t of (C_t − running_max(C_≤t)) / running_max(C_≤t))`. -/
def maxDrawdownClaim (rs : List ℚ) : ℚ :=
  |listMin ((List.range rs.length).map
    (fun t => (cumClaim rs t - runningMaxClaim rs t) / runningMaxClaim rs t))|

/-- The diversification ratio as the claim words it: exactly 1 when the
portfolio standard deviation is within floating tolerance of 0, otherwise
the sum over tickers appearing in both the weight map and the
component-return table of weight × component standard deviation, divided
by the portfolio standard deviation. -/
noncomputable def divRatioClaim (pr : List ℚ) (comp : Df) (w : WeightMap) : ℝ :=
  if |dailyStd pr| ≤ 1e-8 then 1
  else
    ((w.filter (fun p => (comp.cols.map Prod.fst).contains p.1)).map
      (fun p => (p.2 : ℝ) * dailyStd ((List.lookup p.1 comp.cols).getD []))).sum
      / dailyStd pr

/-- The serving behaviour as the claim words it: the Risk Feature Engine
invoked exactly once over the most recent 126-day slice of the
portfolio's daily returns, producing one feature vector in the fixed
column order `[Vol, VaR95, MaxDD, DivRatio]`. -/
noncomputable def servingFeatureRowClaim (priceData : Df)
    (weights : WeightMap) : List ℝ :=
  let dr := portfolioDailyReturns priceData weights
  let recent := dr.drop (dr.length - 126)
  let f := computeAllFeatures (recent.map Prod.snd)
    (some (locSlice (dailyReturnsDf priceData)
      (recent.headD (0, 0)).1 (recent.getLastD (0, 0)).1))
    (some weights)
  [f.vol, (f.var95 : ℝ), (f.maxDD : ℝ), (f.divRatio).getD 1]

/-! ## Concrete data used to instantiate the general theorems -/

/-- A 300-trading-day return series (dates `0..299`, constant return 1,
no NaNs). -/
def series300 : List (ℕ × Option ℚ) :=
  (List.range 300).map (fun d => (d, some (1 : ℚ)))

/-- A 128-day single-ticker price frame (dates `0..127`, prices `1..128`). -/
def prices128 : Df :=
  { dates := List.range 128
    cols := [("A", (List.range 128).map (fun i => (i + 1 : ℚ)))] }

/-! ## Theorems -/

/-- C1: for every triple `(vol, var95, max_dd)` the label-assignment rule
returns `Low` if `vol < 0.12 ∧ max_dd < 0.15`, otherwise `High` if
`vol > 0.20 ∨ max_dd > 0.25 ∨ var95 > 0.03`, otherwise `Medium`, the three
conditions evaluated in exactly this order. -/
theorem assignRiskLabel_matches_claim (vol var95 max_dd : ℝ) :
    assignRiskLabel vol var95 max_dd = assignRiskLabelClaim vol var95 max_dd := by
  unfold assignRiskLabel assignRiskLabelClaim lowCond highCond
  rfl

/-- C4 counterexample: the Low band and the High band are not disjoint.
At `vol = 0.10, var95 = 0.05, max_dd = 0.10` both hold simultaneously
(the Low band does not constrain `var95`). -/
theorem lowCond_highCond_both_hold :
    lowCond 0.10 0.10 ∧ highCond 0.10 0.05 0.10 := by
  refine ⟨⟨by norm_num, by norm_num⟩, Or.inr (Or.inr (by norm_num))⟩

/-- C4 (amended): the Low and High bands overlap exactly when
`vol < 0.12 ∧ max_dd < 0.15 ∧ var95 > 0.03`; on that overlap the Low-first
evaluation order does decide the label, namely to `Low`. -/
theorem lowCond_highCond_overlap (vol var95 max_dd : ℝ) :
    (lowCond vol max_dd ∧ highCond vol var95 max_dd ↔
      vol < 0.12 ∧ max_dd < 0.15 ∧ var95 > 0.03) ∧
    (lowCond vol max_dd → assignRiskLabel vol var95 max_dd = "Low") := by
  constructor
  · constructor
    · rintro ⟨⟨hv, hm⟩, hh⟩
      refine ⟨hv, hm, ?_⟩
      rcases hh with h | h | h
      · linarith
      · linarith
      · exact h
    · rintro ⟨hv, hm, hq⟩
      exact ⟨⟨hv, hm⟩, Or.inr (Or.inr hq)⟩
  · intro hl
    unfold assignRiskLabel
    simp [hl]

/-- C4 witness: instantiating the amended claim at
`vol = 0.10, var95 = 0.05, max_dd = 0.10`. -/
theorem lowCond_highCond_overlap_witness :
    assignRiskLabel 0.10 0.05 0.10 = "Low" :=
  (lowCond_highCond_overlap 0.10 0.05 0.10).2 ⟨by norm_num, by norm_num⟩

/-- C8: `compute_all_features` omits the `Diversification_Ratio` key
entirely whenever component returns or weights are absent, and the Panel
Builder writes `DivRatio = 1.0` into the panel row in exactly that
situation (the key absent from the engine's result). -/
theorem divRatio_omitted_and_panel_fallback (pr : List ℚ) (comp : Option Df)
    (w : Option WeightMap) (pid : String) (slice : List (ℕ × ℚ)) :
    (comp = none ∨ w = none → (computeAllFeatures pr comp w).divRatio = none) ∧
    (comp = none ∨ w = none → (buildRow pid slice comp w).divRatio = 1) := by
  constructor
  · rintro (rfl | rfl)
    · cases w <;> rfl
    · cases comp <;> rfl
  · rintro (rfl | rfl)
    · cases w <;> rfl
    · cases comp <;> rfl

/-- C8 witness: with no component returns and no weights, the engine's
result has no ratio key and the panel row falls back to 1. -/
theorem divRatio_omitted_and_panel_fallback_witness :
    (computeAllFeatures [1] none none).divRatio = none ∧
    (buildRow "P" [(0, 1)] none none).divRatio = 1 :=
  ⟨(divRatio_omitted_and_panel_fallback [1] none none "P" [(0, 1)]).1
      (Or.inl rfl),
   (divRatio_omitted_and_panel_fallback [1] none none "P" [(0, 1)]).2
      (Or.inl rfl)⟩

/-- C10: a portfolio DataFrame with no `Daily_Return` column contributes
zero rows, and the panel over the remaining portfolios is unchanged — the
build continues instead of raising. -/
theorem missing_daily_return_column_skipped
    (ps1 ps2 : List (String × PortfolioDF)) (pid : String) (df : PortfolioDF)
    (compDict : List (String × Df)) (wDict : List (String × WeightMap))
    (h : df.dailyReturn = none) :
    buildPanelForPortfolio pid df (List.lookup pid compDict)
      (List.lookup pid wDict) = [] ∧
    buildPanelDataset (ps1 ++ (pid, df) :: ps2) compDict wDict =
      buildPanelDataset (ps1 ++ ps2) compDict wDict := by
  have hempty : ∀ (c : Option Df) (w' : Option WeightMap),
      buildPanelForPortfolio pid df c w' = [] := by
    intro c w'
    unfold buildPanelForPortfolio
    rw [h]
  refine ⟨hempty _ _, ?_⟩
  unfold buildPanelDataset
  rw [List.flatMap_append, List.flatMap_append, List.flatMap_cons, hempty]
  simp

/-- C10 witness: a two-portfolio build where the second frame lacks the
column yields exactly the panel of the first portfolio alone. -/
theorem missing_daily_return_column_skipped_witness :
    buildPanelDataset [("A", ⟨some []⟩), ("B", ⟨none⟩)] [] [] =
      buildPanelDataset [("A", ⟨some []⟩)] [] [] :=
  (missing_daily_return_column_skipped [("A", ⟨some []⟩)] [] "B" ⟨none⟩
    [] [] rfl).2

/-- C5 counterexample: the claim's "strictly ascending" fails. Two panel
rows sharing `Window_End = 5` (as happens when two portfolios share
window dates) cannot be in strictly ascending `Window_End` order after
the chronological sort. -/
theorem trainEval_not_strictly_sorted :
    ¬ List.Sorted (fun a b : PanelRow => a.windowEnd < b.windowEnd)
      (trainEvalData
        [{ portfolioId := "A", windowStart := 0, windowEnd := 5, vol := 0,
           var95 := 0, maxDD := 0, divRatio := 1, label := "Medium" },
         { portfolioId := "B", windowStart := 0, windowEnd := 5, vol := 0,
           var95 := 0, maxDD := 0, divRatio := 1, label := "Medium" }]) := by
  have key : ∀ l : List PanelRow,
      l.map (fun r => r.windowEnd) = [5, 5] →
      ¬ List.Sorted (fun a b : PanelRow => a.windowEnd < b.windowEnd)
        (trainEvalData l) := by
    intro l hl hs
    have h0 : (trainEvalData l).Perm l := List.mergeSort_perm l _
    have hperm := h0.map (fun r : PanelRow => r.windowEnd)
    rw [hl] at hperm
    have hp := List.Pairwise.map (fun r : PanelRow => r.windowEnd)
      (fun a b (h : a.windowEnd < b.windowEnd) => h) hs
    have hnd : ((trainEvalData l).map (fun r => r.windowEnd)).Nodup :=
      hp.imp (fun h => Nat.ne_of_lt h)
    have : ([5, 5] : List ℕ).Nodup := (hperm.nodup_iff).mp hnd
    simp at this
  exact key _ rfl

/-- C5 (amended): before any temporal cross-validation split is taken,
`train_and_evaluate` sorts the panel by `Window_End` in ascending
(non-strict) order — ties between rows sharing a `Window_End` are kept —
and the sorted dataset is a permutation of the panel it was handed. -/
theorem trainEval_sorted_by_windowEnd (panel : List PanelRow) :
    List.Sorted (fun a b : PanelRow => a.windowEnd ≤ b.windowEnd)
      (trainEvalData panel) ∧
    (trainEvalData panel).Perm panel := by
  constructor
  · have h := @List.sorted_mergeSort PanelRow
      (fun a b : PanelRow => decide (a.windowEnd ≤ b.windowEnd))
      (fun a b c hab hbc => by
        simp only [decide_eq_true_eq] at *
        omega)
      (fun a b => by
        simp only [Bool.or_eq_true, decide_eq_true_eq]
        omega)
      panel
    exact h.imp (fun h' => of_decide_eq_true h')
  · exact List.mergeSort_perm panel _

/-- C9 counterexample: `np.isclose(total, 1.0, rtol=1e-5)` keeps the
default `atol = 1e-8`, so the acceptance band is `1e-5 + 1e-8`, not
`1e-5`.  A weight sum deviating from 1 by `1.0005e-5 > 1e-5` should raise
according to the claim, yet `build_portfolio` accepts it. -/
theorem buildPortfolio_tolerance_cex :
    |((([("A", 1 + 2001 / 200000000)] : WeightMap).map Prod.snd).sum - 1)|
        > 1 / 100000 ∧
    (buildPortfolio ⟨[0, 1], [("A", [1, 2])]⟩
      [("A", 1 + 2001 / 200000000)]).toOption.isSome = true := by
  constructor
  · have hsum : ((([("A", (1 : ℚ) + 2001 / 200000000)] : WeightMap).map
        Prod.snd).sum - 1) = 2001 / 200000000 := by
      norm_num
    rw [hsum, abs_of_pos (by norm_num)]
    norm_num
  · have hv : validateWeights
        (availableTickers ⟨[0, 1], [("A", [1, 2])]⟩)
        [("A", 1 + 2001 / 200000000)] = .ok () := by
      norm_num [validateWeights, availableTickers, dailyReturnsDf, abs_le]
    simp [buildPortfolio, hv, Except.toOption]

/-- C9 (amended): `build_portfolio` raises exactly when the weight map is
empty, or contains a key outside the known tickers, or its sum deviates
from 1 by more than the `np.isclose` band `1e-8 + 1e-5 * |1|`; and when
it raises, the error is the validation error — validation runs before any
aggregation, so no partial result exists. -/
theorem buildPortfolio_error_iff (priceData : Df) (w : WeightMap) :
    ((buildPortfolio priceData w).toOption = none ↔
      (w = [] ∨ (∃ p ∈ w, p.1 ∉ availableTickers priceData) ∨
        |(w.map Prod.snd).sum - 1| > 1e-8 + 1e-5)) ∧
    ((buildPortfolio priceData w).toOption = none →
      (validateWeights (availableTickers priceData) w).toOption = none) := by
  have hval : ∀ avail : List String,
      ((validateWeights avail w).toOption = none ↔
        (w = [] ∨ (∃ p ∈ w, p.1 ∉ avail) ∨
          |(w.map Prod.snd).sum - 1| > 1e-8 + 1e-5)) := by
    intro avail
    unfold validateWeights
    by_cases he : w.isEmpty = true
    · rw [if_pos he]
      simp [List.isEmpty_iff.mp he, Except.toOption]
    · rw [if_neg he]
      have hne : ¬ w = [] := fun hw => he (by simp [hw])
      cases hf : w.find? (fun p => !(avail.contains p.1)) with
      | some p =>
        simp only [hf]
        constructor
        · intro _
          refine Or.inr (Or.inl ⟨p, List.mem_of_find?_eq_some hf, ?_⟩)
          have hp := List.find?_some hf
          intro hmem
          have hel : avail.contains p.1 = true := List.elem_iff.mpr hmem
          rw [hel] at hp
          simp at hp
        · intro _; rfl
      | none =>
        have hnotex : ¬ ∃ p ∈ w, p.1 ∉ avail := by
          rintro ⟨p, hpw, hpn⟩
          have hq := List.find?_eq_none.mp hf p hpw
          simp only [Bool.not_eq_true', Bool.not_eq_false] at hq
          exact hpn (List.elem_iff.mp hq)
        by_cases hle : |(w.map Prod.snd).sum - 1| ≤ 1e-8 + 1e-5 * |(1 : ℚ)|
        · rw [if_pos hle]
          have hle2 : |(w.map Prod.snd).sum - 1| ≤ 1e-8 + 1e-5 := by
            simpa using hle
          simp [hne, hnotex, not_lt.mpr hle2, Except.toOption]
        · rw [if_neg hle]
          have hgt : 1e-8 + 1e-5 < |(w.map Prod.snd).sum - 1| := by
            simpa using lt_of_not_ge hle
          simp [hne, hnotex, hgt, Except.toOption]
  constructor
  · rw [← hval (availableTickers priceData)]
    unfold buildPortfolio
    cases hv : validateWeights (availableTickers priceData) w with
    | error e => simp [hv, Except.toOption]
    | ok u => simp [hv, Except.toOption]
  · intro hb
    unfold buildPortfolio at hb
    cases hv : validateWeights (availableTickers priceData) w with
    | error e => simp [hv, Except.toOption]
    | ok u => rw [hv] at hb; simp [Except.toOption] at hb

/-- C9 witness: a weight map whose key is not among the known tickers is
rejected, and the rejection is the validation error itself. -/
theorem buildPortfolio_error_iff_witness :
    (buildPortfolio ⟨[0, 1], [("A", [1, 2])]⟩ [("B", 1)]).toOption = none ∧
    (validateWeights (availableTickers ⟨[0, 1], [("A", [1, 2])]⟩)
      [("B", 1)]).toOption = none := by
  have h := buildPortfolio_error_iff ⟨[0, 1], [("A", [1, 2])]⟩ [("B", 1)]
  have h1 := h.1.mpr (Or.inr (Or.inl ⟨("B", 1), by simp, by decide⟩))
  exact ⟨h1, h.2 h1⟩

/-- Looking a ticker up in the per-column std list is looking it up in the
column table and taking the std of the column found. -/
theorem lookup_map_dailyStd (t : String) (cs : List (String × List ℚ)) :
    List.lookup t (cs.map (fun c => (c.1, dailyStd c.2))) =
      (List.lookup t cs).map (fun v => dailyStd v) := by
  induction cs with
  | nil => rfl
  | cons c cs ih =>
    cases h : (t == c.1) <;> simp [List.lookup, h, ih]

/-- A ticker has a column in the table iff it is among the column names. -/
theorem lookup_isSome_iff (t : String) (cs : List (String × List ℚ)) :
    (List.lookup t cs).isSome = (cs.map Prod.fst).contains t := by
  induction cs with
  | nil => rfl
  | cons c cs ih =>
    cases h : (t == c.1) <;> simp [List.lookup, h, ih, List.contains, List.elem]

/-- The source's accumulate-if-found fold equals the initial value plus the
sum over the entries whose ticker is found. -/
theorem foldl_lookup_add (vols : List (String × ℝ)) (w : WeightMap) :
    ∀ a : ℝ,
      w.foldl (fun acc p =>
        match List.lookup p.1 vols with
        | some v => acc + (p.2 : ℝ) * v
        | none => acc) a
      = a + ((w.filter (fun p => (List.lookup p.1 vols).isSome)).map
          (fun p => (p.2 : ℝ) * (List.lookup p.1 vols).getD 0)).sum := by
  induction w with
  | nil => intro a; simp
  | cons p w ih =>
    intro a
    cases h : List.lookup p.1 vols with
    | none => simp [List.foldl_cons, h, List.filter_cons, ih]
    | some v =>
      simp only [List.foldl_cons, h, List.filter_cons, Option.isSome_some,
        if_pos, List.map_cons, List.sum_cons, Option.getD_some, ih]
      ring

/-- C7: the diversification ratio equals the claim's formulation — exactly
1 when the portfolio std is within floating tolerance of 0, else the sum
of weight × component std over tickers appearing in both the weight map
and the component table (missing tickers silently skipped), divided by
the portfolio std. -/
theorem computeDiversificationRatio_matches_claim (pr : List ℚ) (comp : Df)
    (w : WeightMap) :
    computeDiversificationRatio pr comp w = divRatioClaim pr comp w := by
  unfold computeDiversificationRatio divRatioClaim
  simp only [sub_zero, abs_zero, mul_zero, add_zero]
  by_cases hc : |dailyStd pr| ≤ 1e-8
  · simp [hc]
  · rw [if_neg hc, if_neg hc]
    congr 1
    rw [foldl_lookup_add]
    rw [zero_add]
    have hfilter : (fun p : String × ℚ =>
        (List.lookup p.1 (comp.cols.map (fun c => (c.1, dailyStd c.2)))).isSome)
        = (fun p : String × ℚ => (comp.cols.map Prod.fst).contains p.1) := by
      funext p
      rw [lookup_map_dailyStd, Option.isSome_map', lookup_isSome_iff]
    rw [hfilter]
    refine congrArg List.sum (List.map_congr_left ?_)
    intro p hp
    have hmem : (comp.cols.map Prod.fst).contains p.1 = true :=
      (List.mem_filter.mp hp).2
    have hsome : (List.lookup p.1 comp.cols).isSome = true := by
      rw [lookup_isSome_iff]; exact hmem
    obtain ⟨v, hv⟩ := Option.isSome_iff_exists.mp hsome
    rw [lookup_map_dailyStd, hv]
    simp

/-- The running cumulative product seeded with `a` is, index by index, `a`
times the spec's re-based cumulative growth `C_t`. -/
theorem cumprodAux_eq (rs : List ℚ) :
    ∀ a : ℚ, cumprodAux a rs =
      (List.range rs.length).map (fun t => a * cumClaim rs t) := by
  induction rs with
  | nil => intro a; simp [cumprodAux]
  | cons r rs ih =>
    intro a
    simp only [cumprodAux, List.length_cons, List.range_succ_eq_map,
      List.map_cons, List.map_map, ih]
    congr 1
    · simp [cumClaim]
    · apply List.map_congr_left
      intro t _
      simp only [Function.comp_apply, cumClaim, List.take_succ_cons,
        List.map_cons, List.prod_cons]
      ring

/-- `cumprod` is, index by index, the spec's cumulative growth series. -/
theorem cumprod_eq (rs : List ℚ) :
    cumprod rs = (List.range rs.length).map (cumClaim rs) := by
  unfold cumprod
  rw [cumprodAux_eq]
  simp

/-- The seeded running maximum is, index by index, the fold of `max` over
the prefix. -/
theorem cummaxAux_eq (ys : List ℚ) :
    ∀ m : ℚ, cummaxAux m ys =
      (List.range ys.length).map (fun t => (ys.take (t + 1)).foldl max m) := by
  induction ys with
  | nil => intro m; simp [cummaxAux]
  | cons y ys ih =>
    intro m
    simp only [cummaxAux, List.length_cons, List.range_succ_eq_map,
      List.map_cons, List.map_map, ih]
    congr 1

/-- `cummax` is, index by index, the running maximum of the prefixes. -/
theorem cummax_eq (xs : List ℚ) :
    cummax xs = (List.range xs.length).map
      (fun t => (xs.take (t + 1)).foldl max (xs.headD 0)) := by
  cases xs with
  | nil => simp [cummax]
  | cons x xs =>
    show x :: cummaxAux x xs = _
    rw [cummaxAux_eq]
    simp only [List.length_cons, List.range_succ_eq_map, List.map_cons,
      List.map_map, List.headD_cons]
    congr 1
    · simp
    · apply List.map_congr_left
      intro t _
      simp [List.take_succ_cons, List.foldl_cons]

/-- C6: on every non-empty return series the source's maximum drawdown
equals the spec's `abs(min over t of (C_t − running_max(C_≤t)) /
running_max(C_≤t))` with `C` re-based at the start of the slice. -/
theorem computeMaxDrawdown_matches_claim (rs : List ℚ) (hne : rs ≠ []) :
    computeMaxDrawdown rs = maxDrawdownClaim rs := by
  have hn : 0 < rs.length := List.length_pos.mpr hne
  have hcum : cumprod rs = (List.range rs.length).map (cumClaim rs) :=
    cumprod_eq rs
  have hmax : cummax (cumprod rs) =
      (List.range rs.length).map (fun t => runningMaxClaim rs t) := by
    rw [cummax_eq, hcum]
    simp only [List.length_map, List.length_range]
    apply List.map_congr_left
    intro t ht
    rw [List.mem_range] at ht
    rw [← List.map_take, List.take_range, min_eq_left (by omega)]
    obtain ⟨n, hn'⟩ : ∃ n, rs.length = n + 1 :=
      ⟨rs.length - 1, by omega⟩
    rw [hn', List.range_succ_eq_map]
    simp only [List.map_cons, List.headD_cons]
    rfl
  have hdraw : List.zipWith (fun c m => (c - m) / m)
      (cumprod rs) (cummax (cumprod rs)) =
      (List.range rs.length).map
        (fun t => (cumClaim rs t - runningMaxClaim rs t) /
          runningMaxClaim rs t) := by
    rw [hmax, hcum, List.zipWith_map, List.zipWith_same]
  show |listMin (List.zipWith (fun c m => (c - m) / m)
      (cumprod rs) (cummax (cumprod rs)))| = maxDrawdownClaim rs
  rw [hdraw]
  rfl

/-- C6 witness: on the return sequence `[0.10, -0.20, 0.10]` the maximum
drawdown is exactly `0.20`, for the source's definition and the spec's
formula alike. -/
theorem computeMaxDrawdown_matches_claim_witness :
    computeMaxDrawdown [1/10, -1/5, 1/10] = 1/5 ∧
    maxDrawdownClaim [1/10, -1/5, 1/10] = 1/5 := by
  have h := computeMaxDrawdown_matches_claim [1/10, -1/5, 1/10] (by simp)
  have hval : computeMaxDrawdown [1/10, -1/5, 1/10] = 1/5 := by
    show |listMin (List.zipWith (fun c m => (c - m) / m)
        (cumprod [1/10, -1/5, 1/10])
        (cummax (cumprod [1/10, -1/5, 1/10])))| = 1/5
    norm_num [cumprod, cumprodAux, cummax, cummaxAux, listMin, min_def,
      max_def, abs]
  exact ⟨hval, h ▸ hval⟩

/-- `pythonRangeAux` ignores the fuel as long as it covers the number of
remaining iterations. -/
theorem pythonRangeAux_congr (s : ℤ) :
    ∀ (f1 f2 : ℕ) (a b : ℤ), (b - a).toNat ≤ f1 → (b - a).toNat ≤ f2 →
      pythonRangeAux f1 a b s = pythonRangeAux f2 a b s := by
  intro f1
  induction f1 with
  | zero =>
    intro f2 a b h1 h2
    cases f2 with
    | zero => rfl
    | succ f2 =>
      have hba : ¬ (a < b) := by omega
      simp [pythonRangeAux, hba]
  | succ f1 ih =>
    intro f2 a b h1 h2
    cases f2 with
    | zero =>
      have hba : ¬ (a < b) := by omega
      simp [pythonRangeAux, hba]
    | succ f2 =>
      simp only [pythonRangeAux]
      by_cases hc : 0 < s ∧ a < b
      · rw [if_pos hc, if_pos hc]
        obtain ⟨hs, hab⟩ := hc
        congr 1
        exact ih f2 (a + s) b (by omega) (by omega)
      · rw [if_neg hc, if_neg hc]

/-- The defining equation of Python `range`: emit `start` and continue at
`start + step` while `start < stop` (positive step). -/
theorem pythonRange_unfold (a b s : ℤ) :
    pythonRange a b s =
      if 0 < s ∧ a < b then a :: pythonRange (a + s) b s else [] := by
  unfold pythonRange
  cases hf : (b - a).toNat with
  | zero =>
    have hba : ¬ (a < b) := by omega
    simp [pythonRangeAux, hba]
  | succ f =>
    simp only [pythonRangeAux]
    by_cases hc : 0 < s ∧ a < b
    · rw [if_pos hc, if_pos hc]
      obtain ⟨hs, hab⟩ := hc
      congr 1
      exact pythonRangeAux_congr s f _ (a + s) b (by omega) le_rfl
    · rw [if_neg hc, if_neg hc]

/-- Python `range(a, stop, s)` over naturals with `a < stop` and a
positive step is the arithmetic progression
`a, a+s, …` of length `(stop - 1 - a) / s + 1`. -/
theorem pythonRange_run (s : ℕ) (hs : 0 < s) (stop : ℕ) :
    ∀ a : ℕ, a < stop →
      pythonRange (a : ℤ) (stop : ℤ) (s : ℤ) =
        (List.range ((stop - 1 - a) / s + 1)).map
          (fun i => ((a + s * i : ℕ) : ℤ)) := by
  have main : ∀ (d : ℕ) (a : ℕ), a < stop → stop - a ≤ d →
      pythonRange (a : ℤ) (stop : ℤ) (s : ℤ) =
        (List.range ((stop - 1 - a) / s + 1)).map
          (fun i => ((a + s * i : ℕ) : ℤ)) := by
    intro d
    induction d with
    | zero => intro a ha hd; omega
    | succ d ih =>
      intro a ha hd
      rw [pythonRange_unfold]
      rw [if_pos ⟨by exact_mod_cast hs, by exact_mod_cast ha⟩]
      by_cases h2 : a + s < stop
      · have harg : ((a : ℤ) + s) = ((a + s : ℕ) : ℤ) := by push_cast; ring
        rw [harg, ih (a + s) h2 (by omega)]
        have hcount : (stop - 1 - a) / s + 1 =
            ((stop - 1 - (a + s)) / s + 1) + 1 := by
          have h3 : s ≤ stop - 1 - a := by omega
          rw [Nat.div_eq_sub_div hs h3]
          have h4 : stop - 1 - a - s = stop - 1 - (a + s) := by omega
          rw [h4]
        conv_rhs => rw [hcount, List.range_succ_eq_map]
        simp only [List.map_cons, List.map_map]
        congr 1
        apply List.map_congr_left
        intro i _
        simp only [Function.comp_apply, Nat.succ_eq_add_one]
        push_cast
        ring
      · rw [pythonRange_unfold]
        have hc2 : ¬ (0 < (s : ℤ) ∧ (a : ℤ) + s < (stop : ℤ)) := by
          rintro ⟨_, hlt⟩
          have : a + s < stop := by exact_mod_cast hlt
          omega
        rw [if_neg hc2]
        have hm : (stop - 1 - a) / s = 0 := Nat.div_eq_of_lt (by omega)
        rw [hm]
        simp [List.range_succ]
  intro a ha
  exact main (stop - a) a ha le_rfl

/-- The window-start list of the rolling loop for a series of length
`n ≥ 126`: the multiples of 21 up to `n - 126`. -/
theorem buildPanel_starts (n : ℕ) (h : 126 ≤ n) :
    pythonRange 0 ((n : ℤ) - 126 + 1) 21 =
      (List.range ((n - 126) / 21 + 1)).map (fun i => ((21 * i : ℕ) : ℤ)) := by
  have hstop : ((n : ℤ) - 126 + 1) = ((n - 126 + 1 : ℕ) : ℤ) := by
    push_cast [h]
    omega
  have h0 : (0 : ℤ) = ((0 : ℕ) : ℤ) := rfl
  have h21 : (21 : ℤ) = ((21 : ℕ) : ℤ) := by norm_num
  rw [hstop, h0, h21, pythonRange_run 21 (by norm_num) (n - 126 + 1) 0 (by omega)]
  have hcount : (n - 126 + 1 - 1 - 0) / 21 + 1 = (n - 126) / 21 + 1 := by
    omega
  rw [hcount]
  apply List.map_congr_left
  intro i _
  norm_num

/-- The head of `l.drop m |>.take k` is the `m`-th element of `l`. -/
theorem headD_drop_take {α : Type} (l : List α) (m k : ℕ) (d : α)
    (hk : 0 < k) :
    ((l.drop m).take k).headD d = l.getD m d := by
  rw [List.headD_eq_head?, List.head?_eq_getElem?, List.getElem?_take,
    if_pos hk, List.getElem?_drop, List.getD_eq_getElem?_getD]
  norm_num

/-- The last element of `l.drop m |>.take k` is the `(m + k - 1)`-th
element of `l`, provided the slice fits inside `l`. -/
theorem getLastD_drop_take {α : Type} (l : List α) (m k : ℕ) (d : α)
    (hk : 0 < k) (hmk : m + k ≤ l.length) :
    ((l.drop m).take k).getLastD d = l.getD (m + k - 1) d := by
  rw [List.getLastD_eq_getLast?, List.getLast?_eq_getElem?]
  have hlen : ((l.drop m).take k).length = k := by
    simp only [List.length_take, List.length_drop]
    omega
  rw [hlen, List.getElem?_take, if_pos (by omega : k - 1 < k),
    List.getElem?_drop, List.getD_eq_getElem?_getD]
  have h4 : m + (k - 1) = m + k - 1 := by omega
  rw [h4]

/-- Indexing into a `map` over `range` with a default evaluates the
function. -/
theorem getD_map_range {α : Type} [Inhabited α] (count : ℕ) (f : ℕ → α)
    (i : ℕ) (hi : i < count) :
    ((List.range count).map f).getD i default = f i := by
  rw [List.getD_eq_getElem?_getD, List.getElem?_map, List.getElem?_range hi]
  rfl

/-- C2: for a portfolio whose `Daily_Return` column, after dropping NaNs,
has length `n`: fewer than 126 observations yield zero rows without
raising; otherwise the builder emits exactly `(n - 126) / 21 + 1` rows,
one per window start `0, 21, 42, …`, each over the contiguous slice
`[start, start + 126)`, with `Window_Start`/`Window_End` equal to the
slice's first and last index dates. -/
theorem buildPanel_window_layout (pid : String) (df : PortfolioDF)
    (comp : Option Df) (w : Option WeightMap) (col : List (ℕ × Option ℚ))
    (hcol : df.dailyReturn = some col) :
    ((dropNa col).length < 126 → buildPanelForPortfolio pid df comp w = []) ∧
    (126 ≤ (dropNa col).length →
      buildPanelForPortfolio pid df comp w =
        (List.range (((dropNa col).length - 126) / 21 + 1)).map
          (fun i => buildRow pid (((dropNa col).drop (21 * i)).take 126)
            comp w) ∧
      (buildPanelForPortfolio pid df comp w).length =
        ((dropNa col).length - 126) / 21 + 1 ∧
      (∀ i, i < ((dropNa col).length - 126) / 21 + 1 →
        ((buildPanelForPortfolio pid df comp w).getD i default).windowStart =
          ((dropNa col).getD (21 * i) (0, 0)).1 ∧
        ((buildPanelForPortfolio pid df comp w).getD i default).windowEnd =
          ((dropNa col).getD (21 * i + 125) (0, 0)).1)) := by
  have hunfold : buildPanelForPortfolio pid df comp w =
      (if (dropNa col).length < WINDOW_LENGTH then []
       else (pythonRange 0 (((dropNa col).length : ℤ) - (WINDOW_LENGTH : ℤ)
           + 1) ((STEP_SIZE : ℕ) : ℤ)).map
         (fun s => buildRow pid
           (((dropNa col).drop s.toNat).take WINDOW_LENGTH) comp w)) := by
    unfold buildPanelForPortfolio
    rw [hcol]
  constructor
  · intro hlt
    rw [hunfold]
    simp only [WINDOW_LENGTH]
    rw [if_pos hlt]
  · intro hge
    have hmain : buildPanelForPortfolio pid df comp w =
        (List.range (((dropNa col).length - 126) / 21 + 1)).map
          (fun i => buildRow pid (((dropNa col).drop (21 * i)).take 126)
            comp w) := by
      rw [hunfold]
      simp only [WINDOW_LENGTH, STEP_SIZE]
      rw [if_neg (by omega)]
      rw [show ((21 : ℕ) : ℤ) = (21 : ℤ) from by norm_num,
        show ((126 : ℕ) : ℤ) = (126 : ℤ) from by norm_num]
      rw [buildPanel_starts (dropNa col).length hge]
      rw [List.map_map]
      apply List.map_congr_left
      intro i _
      simp only [Function.comp_apply, Int.toNat_natCast]
    refine ⟨hmain, ?_, ?_⟩
    · rw [hmain]; simp
    · intro i hi
      have hrow : (buildPanelForPortfolio pid df comp w).getD i default =
          buildRow pid (((dropNa col).drop (21 * i)).take 126) comp w := by
        rw [hmain]; exact getD_map_range _ _ i hi
      have hstep : 21 * i + 126 ≤ (dropNa col).length := by
        omega
      constructor
      · rw [hrow]
        show ((((dropNa col).drop (21 * i)).take 126).headD (0, 0)).1 = _
        rw [headD_drop_take _ _ _ _ (by norm_num)]
      · rw [hrow]
        show ((((dropNa col).drop (21 * i)).take 126).getLastD (0, 0)).1 = _
        rw [getLastD_drop_take _ _ _ _ (by norm_num) hstep]
        have hidx : 21 * i + 126 - 1 = 21 * i + 125 := by omega
        rw [hidx]

set_option maxRecDepth 100000 in
/-- C2 witness: a 300-day series yields exactly 9 rows, with the expected
strictly increasing `Window_Start` and `Window_End` dates. -/
theorem buildPanel_window_layout_witness :
    (buildPanelForPortfolio "P" ⟨some series300⟩ none none).length = 9 ∧
    (buildPanelForPortfolio "P" ⟨some series300⟩ none none).map
      (fun r => r.windowStart) =
        [0, 21, 42, 63, 84, 105, 126, 147, 168] ∧
    (buildPanelForPortfolio "P" ⟨some series300⟩ none none).map
      (fun r => r.windowEnd) =
        [125, 146, 167, 188, 209, 230, 251, 272, 293] ∧
    List.Chain' (fun a b => a < b)
      ((buildPanelForPortfolio "P" ⟨some series300⟩ none none).map
        (fun r => r.windowStart)) ∧
    List.Chain' (fun a b => a < b)
      ((buildPanelForPortfolio "P" ⟨some series300⟩ none none).map
        (fun r => r.windowEnd)) := by
  have h := buildPanel_window_layout "P" ⟨some series300⟩ none none
    series300 rfl
  have hlen : (dropNa series300).length = 300 := by rfl
  have h2 := h.2 (by rw [hlen]; norm_num)
  have hsmap : (buildPanelForPortfolio "P" ⟨some series300⟩ none none).map
      (fun r => r.windowStart) =
        [0, 21, 42, 63, 84, 105, 126, 147, 168] := by
    rw [h2.1, List.map_map, hlen]
    rfl
  have hemap : (buildPanelForPortfolio "P" ⟨some series300⟩ none none).map
      (fun r => r.windowEnd) =
        [125, 146, 167, 188, 209, 230, 251, 272, 293] := by
    rw [h2.1, List.map_map, hlen]
    rfl
  refine ⟨?_, hsmap, hemap, ?_, ?_⟩
  · rw [h2.2.1, hlen]
  · rw [hsmap]; simp [List.chain'_cons]
  · rw [hemap]; simp [List.chain'_cons]

/-- C3 counterexample: a request whose weight sum `0.97` lies inside the
soft acceptance window `[0.95, 1.05]` is nevertheless rejected for its
weight sum — `build_portfolio` re-validates with the strict
training-time tolerance. -/
theorem predictRisk_soft_window_cex :
    ((0.95 : ℚ) ≤ 97 / 100 ∧ (97 / 100 : ℚ) ≤ 1.05) ∧
    predictRisk [("A", 97 / 100)] ⟨[0, 1], [("A", [1, 2])]⟩ =
      .error "Portfolio weights must sum to 1.0." := by
  refine ⟨⟨by norm_num, by norm_num⟩, ?_⟩
  have hd : dictOfList [("A", (97 : ℚ) / 100)] = [("A", 97 / 100)] := rfl
  have hv : validateWeights
      (availableTickers ⟨[0, 1], [("A", [1, 2])]⟩) [("A", (97 : ℚ) / 100)] =
      .error "Portfolio weights must sum to 1.0." := by
    norm_num [validateWeights, availableTickers, dailyReturnsDf, abs_le]
  have hbp : buildPortfolio ⟨[0, 1], [("A", [1, 2])]⟩
      (dictOfList [("A", (97 : ℚ) / 100)]) =
      .error "Portfolio weights must sum to 1.0." := by
    rw [hd]
    unfold buildPortfolio
    rw [hv]
  unfold predictRisk
  rw [if_neg (by norm_num), if_neg (by norm_num)]
  simp only [hbp]

/-- C3 (amended): the `[0.95, 1.05]` window is only the first gate — the
portfolio builder then re-validates the weight sum with the strict
`np.isclose` tolerance around 1.  For every request that also passes the
strict validation and has at least 126 days of reconstructed returns, the
endpoint returns exactly one feature vector: the Risk Feature Engine
applied once to the most recent 126-day slice, in the fixed column order
`[Vol, VaR95, MaxDD, DivRatio]`. -/
theorem predictRisk_feature_row (holdings : List (String × ℚ))
    (priceData : Df)
    (hsoft : 0.95 ≤ (holdings.map Prod.snd).sum ∧
      (holdings.map Prod.snd).sum ≤ 1.05)
    (hval : validateWeights (availableTickers priceData)
      (dictOfList holdings) = .ok ())
    (hlen : 126 ≤ (portfolioDailyReturns priceData
      (dictOfList holdings)).length) :
    predictRisk holdings priceData =
      .ok (servingFeatureRowClaim priceData (dictOfList holdings)) := by
  unfold predictRisk
  rw [if_neg (not_not_intro hsoft)]
  have hne : ¬ holdings.isEmpty = true := by
    intro he
    rw [List.isEmpty_iff.mp he] at hsoft
    norm_num at hsoft
  rw [if_neg hne]
  unfold buildPortfolio
  simp only [hval]
  rw [if_neg (by omega :
    ¬ (portfolioDailyReturns priceData (dictOfList holdings)).length < 126)]
  rfl

/-- C3 witness: a weight-1 single-holding request over a 128-day price
history is accepted and yields the single claim-side feature row. -/
theorem predictRisk_feature_row_witness :
    predictRisk [("A", 1)] prices128 =
      .ok (servingFeatureRowClaim prices128 (dictOfList [("A", 1)])) := by
  apply predictRisk_feature_row
  · constructor <;> norm_num
  · norm_num [validateWeights, availableTickers, dailyReturnsDf, prices128,
      dictOfList, dictInsert, abs_le]
  · simp [portfolioDailyReturns, dailyReturnsDf, prices128]

end QuantShield
